import Mathlib

/-!
# To-Do list (`script.js`): task store, view projection and persistence

A shallow embedding of the `DOMContentLoaded` handler of `script.js`.

JavaScript objects have identity: `tasks.indexOf(task)` compares object
references (strict equality) and `tasks[index].completed = ...` mutates the
object an array slot points to.  The embedding therefore keeps an object heap
(`State.heap`) and lets the array `tasks` hold references into it.  Results of
platform calls that the script cannot control (`confirm`, a throwing
`localStorage.setItem`) are arguments of the operations.

The script writes the task text unescaped into `li.innerHTML` and then looks
the checkbox and the trash button up with `li.querySelector`.  What the HTML
parser makes of that markup is the browser's business: the answers of
`querySelector` are a component of the state (`State.browser`), and a lookup
that finds nothing makes `renderTasks` throw, as `null.addEventListener` does.
-/

namespace TodoList

/-! ## Data model -/

/-- Fields of a task object literal `{ text, completed, priority }`. -/
structure Task where
  text : String
  completed : Bool
  priority : String
deriving DecidableEq, Repr

/-- Object references: the identity of a task object. -/
abbrev Ref := Nat

/-- Values taken by the variable `currentFilter`. -/
inductive Filter where
  | all
  | active
  | completed
deriving DecidableEq, Repr

/-- One rendered `li`: the argument captured by the checkbox `change` handler
(`toggleTask(index)`), the argument captured by the trash button `click`
handler (`deleteTask(index)`), and the task fields written into the markup. -/
structure ViewItem where
  toggleIndex : Int
  deleteIndex : Int
  shown : Task
deriving DecidableEq, Repr

/-- Numbers interpolated by `updateCount` into `taskCount` and `completedCount`. -/
structure Counts where
  active : Int
  total : Nat
  completed : Nat
deriving DecidableEq, Repr

/-- Content of the page after a render: the `li` items of `taskList`, the
placeholder `li` when nothing is displayed, and the counters. -/
structure View where
  items : List ViewItem
  emptyMsg : Option String
  counts : Counts
deriving DecidableEq, Repr

/-- Exceptions thrown by the platform. -/
inductive JSError where
  | syntaxError
  | typeError (msg : String)
deriving DecidableEq, Repr

/-- Values produced by `JSON.parse`.  A number is kept as its source text: its
numeric value plays no role in the script. -/
inductive JSValue where
  | null
  | bool (b : Bool)
  | number (lexeme : String)
  | string (s : String)
  | array (elems : List JSValue)
  | object (props : List (String × JSValue))

/-- What the script observes of the browser's HTML handling.

* `querySelector markup selector` tells whether `li.querySelector(selector)`
  finds an element once `li.innerHTML = markup` has been executed.
* `untypedItem task` is the exception, if any, raised by lines 58-70 (the
  template literal, the assignment to `innerHTML` and the two lookups) for an
  array element that is not a task object, where the conversions of its
  `text` and `completed` to markup are the engine's. -/
structure Browser where
  querySelector : String → String → Bool
  untypedItem : JSValue → Option JSError

/-- Observable platform calls made by the script, and an exception leaving an
event handler uncaught. -/
inductive Event where
  | setItem (value : String) (threw : Bool)
  | consoleError (msg : String)
  | confirm (msg : String) (answer : Bool)
  | confetti
  | focusInput
  | uncaught (e : JSError)
deriving DecidableEq, Repr

/-- Variables of the handler closure together with the platform state they talk to. -/
structure State where
  /-- Object store: the fields of the object behind each reference. -/
  heap : Ref → Task
  /-- The array `tasks`. -/
  tasks : List Ref
  currentFilter : Filter
  /-- Value stored in `localStorage` under the key `tasks`. -/
  storage : Option String
  view : View
  /-- The text field `taskInput.value`. -/
  taskInput : String
  /-- The select `prioritySelect.value`. -/
  prioritySelect : String
  log : List Event
  /-- The HTML parser behind `innerHTML` and `querySelector`; no operation changes it. -/
  browser : Browser

/-- The task collection as a sequence of task values, in array order. -/
def collection (s : State) : List Task :=
  s.tasks.map s.heap

/-! ## Platform functions used by the script -/

/-- Code points removed by `String.prototype.trim`: ECMAScript `WhiteSpace`
and `LineTerminator`. -/
def isJSWhiteSpace (c : Char) : Bool :=
  let n := c.toNat
  n == 0x9 || n == 0xA || n == 0xB || n == 0xC || n == 0xD || n == 0x20 ||
  n == 0xA0 || n == 0x1680 || (0x2000 ≤ n && n ≤ 0x200A) || n == 0x2028 ||
  n == 0x2029 || n == 0x202F || n == 0x205F || n == 0x3000 || n == 0xFEFF

/-- String.prototype.trim on a list of characters. -/
def trimChars (cs : List Char) : List Char :=
  ((cs.dropWhile isJSWhiteSpace).reverse.dropWhile isJSWhiteSpace).reverse

/-- String.prototype.trim. -/
def trim (s : String) : String :=
  String.mk (trimChars s.data)

/-- Array.prototype.indexOf over references, scanning from offset `k`:
the first position holding the very same object, `-1` when there is none. -/
def indexOfFrom (r : Ref) : List Ref → Nat → Int
  | [], _ => -1
  | x :: xs, k => if x = r then (k : Int) else indexOfFrom r xs (k + 1)

/-- Array.prototype.indexOf. -/
def indexOf (xs : List Ref) (r : Ref) : Int :=
  indexOfFrom r xs 0

/-- Array.prototype.splice(start, deleteCount) without inserted items, on an
integer `start`: a negative `start` counts from the end, and both the start
and the number of removed elements are clamped to the array. -/
def splice {α : Type} (xs : List α) (start deleteCount : Int) : List α :=
  let len : Int := xs.length
  let actualStart : Int := if start < 0 then max (len + start) 0 else min start len
  let actualDeleteCount : Int := min (max deleteCount 0) (len - actualStart)
  xs.take actualStart.toNat ++ xs.drop (actualStart.toNat + actualDeleteCount.toNat)

/-- A reference held by no slot of the array: the identity of the object a
fresh object literal evaluates to. -/
def freshRef (xs : List Ref) : Ref :=
  xs.foldr (fun r m => max (r + 1) m) 0

/-- Hexadecimal digit used by JSON escapes. -/
def hexDigit (n : Nat) : Char :=
  if n < 10 then Char.ofNat (48 + n) else Char.ofNat (87 + n)

/-- JSON.stringify of one character inside a string. -/
def quoteChar (c : Char) : List Char :=
  let n := c.toNat
  if n = 34 then [Char.ofNat 92, Char.ofNat 34]
  else if n = 92 then [Char.ofNat 92, Char.ofNat 92]
  else if n = 8 then [Char.ofNat 92, Char.ofNat 98]
  else if n = 12 then [Char.ofNat 92, Char.ofNat 102]
  else if n = 10 then [Char.ofNat 92, Char.ofNat 110]
  else if n = 13 then [Char.ofNat 92, Char.ofNat 114]
  else if n = 9 then [Char.ofNat 92, Char.ofNat 116]
  else if n < 32 then
    [Char.ofNat 92, Char.ofNat 117, Char.ofNat 48, Char.ofNat 48, hexDigit (n / 16), hexDigit (n % 16)]
  else [c]

/-- JSON.stringify of a string value. -/
def quoteJSON (s : String) : String :=
  String.mk ([Char.ofNat 34] ++ (s.data.map quoteChar).flatten ++ [Char.ofNat 34])

/-- JSON.stringify of one task object. -/
def stringifyTask (t : Task) : String :=
  "\x7b\"text\":" ++ quoteJSON t.text ++ ",\"completed\":" ++
    (if t.completed then "true" else "false") ++ ",\"priority\":" ++
    quoteJSON t.priority ++ "\x7d"

/-- JSON.stringify of the array `tasks`. -/
def stringify (c : List Task) : String :=
  "[" ++ ",".intercalate (c.map stringifyTask) ++ "]"

/-! ## The script's functions -/

/-- The callback of `tasks.filter` in `renderTasks`. -/
def filterPredicate (currentFilter : Filter) (task : Task) : Bool :=
  if currentFilter = Filter.active then !task.completed
  else if currentFilter = Filter.completed then task.completed
  else true

/-- The text of the placeholder item. -/
def emptyMessage (currentFilter : Filter) : String :=
  if currentFilter = Filter.all then "No tasks yet! Add one above."
  else if currentFilter = Filter.active then "No active tasks"
  else "No completed tasks"

/-- The function `updateCount`. -/
def updateCount (s : State) : Counts :=
  let total := s.tasks.length
  let completed := (s.tasks.filter (fun t => (s.heap t).completed)).length
  { active := (total : Int) - (completed : Int), total := total, completed := completed }

/-- The template literal assigned to `li.innerHTML` (lines 58-66): the task
text is interpolated as it is, with no escaping. -/
def itemMarkup (task : Task) : String :=
  "\n                    <div class=\"flex items-center flex-1\">" ++
  "\n                        <input type=\"checkbox\" class=\"h-5 w-5 mr-3 cursor-pointer\" " ++
  (if task.completed then "checked" else "") ++ ">" ++
  "\n                        <span class=\"truncate " ++
  (if task.completed then "line-through text-gray-500" else "text-gray-800") ++ "\">" ++
  task.text ++ "</span>" ++
  "\n                    </div>" ++
  "\n                    <button class=\"text-gray-400 hover:text-red-500 ml-2\">" ++
  "\n                        <i class=\"fas fa-trash\"></i>" ++
  "\n                    </button>" ++
  "\n                "

/-- The `li` of one displayed task once both handlers are attached. -/
def renderItem (s : State) (task : Ref) : ViewItem :=
  let index := indexOf s.tasks task
  { toggleIndex := index, deleteIndex := index, shown := s.heap task }

/-- The body of the `forEach` callback for one element of `filteredTasks`
(lines 54-72): the `li` that is appended, or the `TypeError` of calling
`addEventListener` on the `null` a lookup returned. -/
def buildItem (s : State) (task : Ref) : Except JSError ViewItem :=
  let markup := itemMarkup (s.heap task)
  if s.browser.querySelector markup "input" = false then
    Except.error (JSError.typeError "Cannot read properties of null (reading addEventListener)")
  else if s.browser.querySelector markup "button" = false then
    Except.error (JSError.typeError "Cannot read properties of null (reading addEventListener)")
  else Except.ok (renderItem s task)

/-- The loop `filteredTasks.forEach`: the items appended to `taskList`, and the
exception that ended the loop early, if any. -/
def forEachItem (s : State) : List Ref → List ViewItem × Option JSError
  | [] => ([], none)
  | task :: more =>
    match buildItem s task with
    | Except.error e => ([], some e)
    | Except.ok item => (item :: (forEachItem s more).1, (forEachItem s more).2)

/-- The function `renderTasks`: the state it leaves and the exception it throws,
if any.  When the loop throws, the items appended so far stay in the emptied
list and `updateCount` is not reached, so the counters keep their content. -/
def renderTasks (s : State) : State × Option JSError :=
  let filteredTasks := s.tasks.filter (fun task => filterPredicate s.currentFilter (s.heap task))
  if filteredTasks.length = 0 then
    ({ s with view :=
        { items := [], emptyMsg := some (emptyMessage s.currentFilter), counts := updateCount s } },
      none)
  else
    match (forEachItem s filteredTasks).2 with
    | some e =>
      ({ s with view :=
          { items := (forEachItem s filteredTasks).1, emptyMsg := none, counts := s.view.counts } },
        some e)
    | none =>
      ({ s with view :=
          { items := (forEachItem s filteredTasks).1, emptyMsg := none, counts := updateCount s } },
        none)

/-- A call `renderTasks()` outside any `try` (the filter buttons, the initial
render): an exception leaves the handler uncaught. -/
def renderUncaught (s : State) : State :=
  match (renderTasks s).2 with
  | none => (renderTasks s).1
  | some e => { (renderTasks s).1 with log := (renderTasks s).1.log ++ [Event.uncaught e] }

/-- The function `saveAndRender`; `setItemThrows` tells whether
`localStorage.setItem` throws on this call.  The `catch` also receives an
exception thrown by `renderTasks`. -/
def saveAndRender (s : State) (setItemThrows : Bool) : State :=
  let value := stringify (collection s)
  if setItemThrows then
    { s with log := s.log ++ [Event.setItem value true, Event.consoleError "Failed to save tasks"] }
  else
    let written : State := { s with storage := some value, log := s.log ++ [Event.setItem value false] }
    match (renderTasks written).2 with
    | none => (renderTasks written).1
    | some _ =>
      { (renderTasks written).1 with
        log := (renderTasks written).1.log ++ [Event.consoleError "Failed to save tasks"] }

/-- The function `addTask`. -/
def addTask (s : State) (setItemThrows : Bool) : State :=
  let text := trim s.taskInput
  if text = "" then s
  else
    let priority := s.prioritySelect
    let task := freshRef s.tasks
    let pushed : State :=
      { s with
        heap := Function.update s.heap task { text := text, completed := false, priority := priority }
        tasks := s.tasks ++ [task] }
    let saved := saveAndRender pushed setItemThrows
    { saved with taskInput := "", log := saved.log ++ [Event.focusInput] }

/-- The function `toggleTask`. -/
def toggleTask (s : State) (index : Int) (setItemThrows : Bool) : State :=
  if h : index < 0 ∨ index ≥ (s.tasks.length : Int) then s
  else
    let r := s.tasks.get ⟨index.toNat, by omega⟩
    let old := s.heap r
    let flipped : State :=
      { s with heap := Function.update s.heap r { old with completed := !old.completed } }
    let saved := saveAndRender flipped setItemThrows
    if (saved.heap r).completed then { saved with log := saved.log ++ [Event.confetti] } else saved

/-- The function `deleteTask`. -/
def deleteTask (s : State) (index : Int) (setItemThrows : Bool) : State :=
  saveAndRender { s with tasks := splice s.tasks index 1 } setItemThrows

/-- The function `clearCompleted`. -/
def clearCompleted (s : State) (setItemThrows : Bool) : State :=
  saveAndRender { s with tasks := s.tasks.filter (fun t => !(s.heap t).completed) } setItemThrows

/-- The function `clearAll`; `confirmAnswer` is what `confirm` returns if it is called. -/
def clearAll (s : State) (confirmAnswer setItemThrows : Bool) : State :=
  if s.tasks.length = 0 then s
  else
    let asked : State := { s with log := s.log ++ [Event.confirm "Delete all tasks?" confirmAnswer] }
    if confirmAnswer then saveAndRender { asked with tasks := [] } setItemThrows
    else asked

/-- The click handlers of `allBtn`, `activeBtn` and `completedBtn`. -/
def setFilter (s : State) (f : Filter) : State :=
  renderUncaught { s with currentFilter := f }

/-! ## Startup: `JSON.parse` and the untyped value of `tasks`

At startup `tasks` receives whatever `JSON.parse` returns, which need not be an
array of task objects.  This part follows the script on arbitrary JSON values. -/

/-- JSON insignificant whitespace: space, tab, line feed, carriage return. -/
def isJSONSpace (c : Char) : Bool :=
  c.toNat == 0x20 || c.toNat == 0x9 || c.toNat == 0xA || c.toNat == 0xD

/-- Skip insignificant whitespace. -/
def skipWS (cs : List Char) : List Char :=
  cs.dropWhile isJSONSpace

/-- Decimal digit test. -/
def isDigit (c : Char) : Bool :=
  48 ≤ c.toNat && c.toNat ≤ 57

/-- Value of a hexadecimal digit. -/
def hexVal (c : Char) : Option Nat :=
  let n := c.toNat
  if 48 ≤ n ∧ n ≤ 57 then some (n - 48)
  else if 97 ≤ n ∧ n ≤ 102 then some (n - 87)
  else if 65 ≤ n ∧ n ≤ 70 then some (n - 55)
  else none

/-- The code unit denoted by a one-letter escape. -/
def simpleEscape (c : Char) : Option Nat :=
  if c = '"' then some 34
  else if c = '\\' then some 92
  else if c = '/' then some 47
  else if c = 'b' then some 8
  else if c = 'f' then some 12
  else if c = 'n' then some 10
  else if c = 'r' then some 13
  else if c = 't' then some 9
  else none

/-- The characters of a JSON string after its opening quote, as code units
(an unescaped character stands for its code point). -/
def parseStringBody : Nat → List Char → List Nat → Option (List Nat × List Char)
  | 0, _, _ => none
  | _ + 1, [], _ => none
  | fuel + 1, c :: rest, acc =>
    if c = '"' then some (acc, rest)
    else if c = '\\' then
      match rest with
      | [] => none
      | e :: rest1 =>
        if e = 'u' then
          match rest1 with
          | h1 :: h2 :: h3 :: h4 :: rest2 =>
            match hexVal h1, hexVal h2, hexVal h3, hexVal h4 with
            | some a, some b, some c, some d =>
              parseStringBody fuel rest2 (acc ++ [4096 * a + 256 * b + 16 * c + d])
            | _, _, _, _ => none
          | _ => none
        else
          match simpleEscape e with
          | some u => parseStringBody fuel rest1 (acc ++ [u])
          | none => none
    else if c.toNat < 0x20 then none
    else parseStringBody fuel rest (acc ++ [c.toNat])

/-- A code unit outside a surrogate pair as a character; a lone surrogate has
no counterpart among Lean characters and becomes U+FFFD. -/
def unitToChar (u : Nat) : Char :=
  if 0xD800 ≤ u ∧ u < 0xE000 then Char.ofNat 0xFFFD else Char.ofNat u

/-- Code units to characters, joining surrogate pairs. -/
def decodeUnits : Nat → List Nat → List Char
  | 0, _ => []
  | _ + 1, [] => []
  | _ + 1, [u] => [unitToChar u]
  | fuel + 1, hi :: lo :: rest =>
    if 0xD800 ≤ hi ∧ hi < 0xDC00 ∧ 0xDC00 ≤ lo ∧ lo < 0xE000 then
      Char.ofNat (0x10000 + (hi - 0xD800) * 0x400 + (lo - 0xDC00)) :: decodeUnits fuel rest
    else unitToChar hi :: decodeUnits fuel (lo :: rest)

/-- A JSON number: `-? (0 | [1-9][0-9]*) (. [0-9]+)? ([eE] [+-]? [0-9]+)?`. -/
def parseNumber (cs : List Char) : Option (String × List Char) :=
  let signed : List Char × List Char :=
    match cs with
    | c :: r => if c = '-' then ([c], r) else ([], cs)
    | [] => ([], cs)
  let intPart : Option (List Char × List Char) :=
    match signed.2 with
    | [] => none
    | d :: r =>
      if d = '0' then some ([d], r)
      else if isDigit d then some (d :: r.takeWhile isDigit, r.dropWhile isDigit)
      else none
  match intPart with
  | none => none
  | some (ds, r1) =>
    let fracPart : Option (List Char × List Char) :=
      match r1 with
      | p :: r =>
        if p = '.' then
          (if r.takeWhile isDigit = [] then none
           else some (p :: r.takeWhile isDigit, r.dropWhile isDigit))
        else some ([], r1)
      | [] => some ([], r1)
    match fracPart with
    | none => none
    | some (fs, r2) =>
      let expPart : Option (List Char × List Char) :=
        match r2 with
        | e :: r =>
          if e = 'e' ∨ e = 'E' then
            let sgn : List Char × List Char :=
              match r with
              | g :: r3 => if g = '+' ∨ g = '-' then ([g], r3) else ([], r)
              | [] => ([], r)
            (if sgn.2.takeWhile isDigit = [] then none
             else some (e :: sgn.1 ++ sgn.2.takeWhile isDigit, sgn.2.dropWhile isDigit))
          else some ([], r2)
        | [] => some ([], r2)
      match expPart with
      | none => none
      | some (es, r3) => some (String.mk (signed.1 ++ ds ++ fs ++ es), r3)

/-- The remaining input after the given keyword letters. -/
def expect : List Char → List Char → Option (List Char)
  | [], cs => some cs
  | _ :: _, [] => none
  | k :: ks, c :: cs => if k = c then expect ks cs else none

mutual
/-- A JSON value, after optional whitespace. -/
def parseValue : Nat → List Char → Option (JSValue × List Char)
  | 0, _ => none
  | fuel + 1, cs =>
    match skipWS cs with
    | [] => none
    | c :: rest =>
      if c = '[' then
        match skipWS rest with
        | [] => none
        | d :: rest1 =>
          if d = ']' then some (JSValue.array [], rest1)
          else parseElements fuel (d :: rest1) []
      else if c = Char.ofNat 123 then
        match skipWS rest with
        | [] => none
        | d :: rest1 =>
          if d = Char.ofNat 125 then some (JSValue.object [], rest1)
          else parseMembers fuel (d :: rest1) []
      else if c = '"' then
        match parseStringBody (rest.length + 1) rest [] with
        | some (us, rest1) =>
          some (JSValue.string (String.mk (decodeUnits (us.length + 1) us)), rest1)
        | none => none
      else if c = 'n' then
        match expect ['u', 'l', 'l'] rest with
        | some rest1 => some (JSValue.null, rest1)
        | none => none
      else if c = 't' then
        match expect ['r', 'u', 'e'] rest with
        | some rest1 => some (JSValue.bool true, rest1)
        | none => none
      else if c = 'f' then
        match expect ['a', 'l', 's', 'e'] rest with
        | some rest1 => some (JSValue.bool false, rest1)
        | none => none
      else
        match parseNumber (c :: rest) with
        | some (lexeme, rest1) => some (JSValue.number lexeme, rest1)
        | none => none
/-- The elements of an array after its opening bracket, up to the closing one. -/
def parseElements : Nat → List Char → List JSValue → Option (JSValue × List Char)
  | 0, _, _ => none
  | fuel + 1, cs, acc =>
    match parseValue fuel cs with
    | none => none
    | some (v, rest) =>
      match skipWS rest with
      | [] => none
      | d :: rest1 =>
        if d = ',' then parseElements fuel rest1 (acc ++ [v])
        else if d = ']' then some (JSValue.array (acc ++ [v]), rest1)
        else none
/-- The members of an object after its opening brace, up to the closing one. -/
def parseMembers : Nat → List Char → List (String × JSValue) → Option (JSValue × List Char)
  | 0, _, _ => none
  | fuel + 1, cs, acc =>
    match skipWS cs with
    | [] => none
    | q :: rest =>
      if q = '"' then
        match parseStringBody (rest.length + 1) rest [] with
        | none => none
        | some (us, rest1) =>
          match skipWS rest1 with
          | [] => none
          | colon :: rest2 =>
            if colon = ':' then
              match parseValue fuel rest2 with
              | none => none
              | some (v, rest3) =>
                let key := String.mk (decodeUnits (us.length + 1) us)
                match skipWS rest3 with
                | [] => none
                | d :: rest4 =>
                  if d = ',' then parseMembers fuel rest4 (acc ++ [(key, v)])
                  else if d = Char.ofNat 125 then some (JSValue.object (acc ++ [(key, v)]), rest4)
                  else none
            else none
      else none
end

/-- The platform function `JSON.parse`: one JSON value surrounded by optional
whitespace, a `SyntaxError` otherwise.  The recursion budget exceeds the
number of characters, each nested call consuming at least one. -/
def JSON.parse (text : String) : Except JSError JSValue :=
  match parseValue (2 * text.data.length + 2) text.data with
  | some (v, rest) => if skipWS rest = [] then Except.ok v else Except.error JSError.syntaxError
  | none => Except.error JSError.syntaxError

/-- Lines 24-31: the value of `tasks` after the guarded load, given what
`localStorage.getItem('tasks')` returned, and what was logged. -/
def load (saved : Option String) : JSValue × List Event :=
  match saved with
  | none => (JSValue.array [], [])
  | some text =>
    if text = "" then (JSValue.array [], [])
    else
      match JSON.parse text with
      | Except.ok v => (v, [])
      | Except.error _ =>
        (JSValue.array [], [Event.consoleError "Failed to parse tasks from localStorage"])

/-- The last binding of a key among the members of a parsed object. -/
def lookupProp (key : String) : List (String × JSValue) → Option JSValue
  | [] => none
  | (k, v) :: ps =>
    match lookupProp key ps with
    | some w => some w
    | none => if k = key then some v else none

/-- Reading one of the properties `text`, `completed`, `priority` of a value:
a `TypeError` on `null`, the member of an object, `undefined` (here `none`)
on anything else, none of the built-in prototypes defining these names. -/
def getProp (v : JSValue) (key : String) : Except JSError (Option JSValue) :=
  match v with
  | JSValue.null =>
    Except.error (JSError.typeError ("Cannot read properties of null (reading " ++ key ++ ")"))
  | JSValue.object props => Except.ok (lookupProp key props)
  | _ => Except.ok none

/-- A parsed value read as a task object with a string `text`, a boolean
`completed` and a string `priority`. -/
def asTask (v : JSValue) : Option Task :=
  match v with
  | JSValue.object props =>
    match lookupProp "text" props, lookupProp "completed" props, lookupProp "priority" props with
    | some (JSValue.string t), some (JSValue.bool c), some (JSValue.string p) =>
      some { text := t, completed := c, priority := p }
    | _, _, _ => none
  | _ => none

/-- The markup and the two lookups of lines 58-70 on an untyped element: for
a task object the markup is `itemMarkup` and the lookups are the browser's
`querySelector`; for anything else the outcome is the browser's `untypedItem`. -/
def lookupControlsJS (browser : Browser) (task : JSValue) : Except JSError Unit :=
  match asTask task with
  | some t =>
    if browser.querySelector (itemMarkup t) "input" = false then
      Except.error (JSError.typeError "Cannot read properties of null (reading addEventListener)")
    else if browser.querySelector (itemMarkup t) "button" = false then
      Except.error (JSError.typeError "Cannot read properties of null (reading addEventListener)")
    else Except.ok ()
  | none =>
    match browser.untypedItem task with
    | some e => Except.error e
    | none => Except.ok ()

/-- Building the `li` of one displayed element: the property reads
`task.priority` for the class name, then `task.completed` and `task.text`
for the markup, then the markup and the lookups. -/
def renderItemJS (browser : Browser) (task : JSValue) : Except JSError Unit :=
  match getProp task "priority" with
  | Except.error e => Except.error e
  | Except.ok _ =>
    match getProp task "completed" with
    | Except.error e => Except.error e
    | Except.ok _ =>
      match getProp task "text" with
      | Except.error e => Except.error e
      | Except.ok _ => lookupControlsJS browser task

/-- The loop `filteredTasks.forEach` on untyped elements. -/
def forEachItemJS (browser : Browser) : List JSValue → Except JSError Unit
  | [] => Except.ok ()
  | task :: more =>
    match renderItemJS browser task with
    | Except.error e => Except.error e
    | Except.ok _ => forEachItemJS browser more

/-- The callback `t => t.completed` of `updateCount` run over untyped elements. -/
def readCompletedJS : List JSValue → Except JSError Unit
  | [] => Except.ok ()
  | t :: more =>
    match getProp t "completed" with
    | Except.error e => Except.error e
    | Except.ok _ => readCompletedJS more

/-- The call `renderTasks()` of line 209, where `currentFilter` is still
`'all'` (line 33), on whatever value `tasks` holds: `tasks.filter` exists only
on an array, the filter callback keeps every element without reading it, the
loop builds an item for each element and `updateCount` reads `completed` of
each element. -/
def initialRender (browser : Browser) (tasks : JSValue) : Except JSError Unit :=
  match tasks with
  | JSValue.array elems =>
    if elems.length = 0 then readCompletedJS elems
    else
      match forEachItemJS browser elems with
      | Except.error e => Except.error e
      | Except.ok _ => readCompletedJS elems
  | JSValue.null =>
    Except.error (JSError.typeError "Cannot read properties of null (reading filter)")
  | _ => Except.error (JSError.typeError "tasks.filter is not a function")

/-- Startup from the load to the initial render: the exception that escapes
the handler, or the value `tasks` holds once the page is up. -/
def startup (browser : Browser) (saved : Option String) : Except JSError JSValue :=
  match initialRender browser (load saved).1 with
  | Except.error e => Except.error e
  | Except.ok _ => Except.ok (load saved).1

/-- The elements of a parsed array read as task objects. -/
def asTasks : List JSValue → Option (List Task)
  | [] => some []
  | v :: vs =>
    match asTask v, asTasks vs with
    | some t, some ts => some (t :: ts)
    | _, _ => none

/-- A parsed value read as a task collection: an array of task objects. -/
def asCollection (v : JSValue) : Option (List Task) :=
  match v with
  | JSValue.array elems => asTasks elems
  | _ => none

/-- The state in which the page is up when the load produced the task
collection `c`: `JSON.parse` allocates one object per element, `currentFilter`
is `'all'` and the initial render has run.  `saved` is the content of the
store, `input` and `priority` the content of the two form fields, `browser`
the HTML parser of the page. -/
def initState (browser : Browser) (c : List Task) (saved : Option String)
    (input priority : String) : State :=
  renderUncaught
    { heap := fun r => c.getD r { text := "", completed := false, priority := "" }
      tasks := List.range c.length
      currentFilter := Filter.all
      storage := saved
      view := { items := [], emptyMsg := none, counts := { active := 0, total := 0, completed := 0 } }
      taskInput := input
      prioritySelect := priority
      log := []
      browser := browser }

/-- What the user can do on the page, with the platform's answer where one is involved. -/
inductive Action where
  | typeText (value : String)
  | selectPriority (value : String)
  | clickAdd (setItemThrows : Bool)
  | clickToggle (index : Int) (setItemThrows : Bool)
  | clickDelete (index : Int) (setItemThrows : Bool)
  | clickClearCompleted (setItemThrows : Bool)
  | clickClearAll (confirmAnswer setItemThrows : Bool)
  | clickFilter (f : Filter)

/-- The effect of one user action. -/
def step (s : State) (a : Action) : State :=
  match a with
  | Action.typeText value => { s with taskInput := value }
  | Action.selectPriority value => { s with prioritySelect := value }
  | Action.clickAdd t => addTask s t
  | Action.clickToggle index t => toggleTask s index t
  | Action.clickDelete index t => deleteTask s index t
  | Action.clickClearCompleted t => clearCompleted s t
  | Action.clickClearAll a t => clearAll s a t
  | Action.clickFilter f => setFilter s f

/-- States the page can be in: a start from a stored task collection followed
by any sequence of user actions. -/
def Reachable (s : State) : Prop :=
  ∃ (browser : Browser) (c : List Task) (saved : Option String) (input priority : String)
    (actions : List Action), s = actions.foldl step (initState browser c saved input priority)

/-! ## The view projector of the specification -/

/-- The filter predicate in the words of the specification: `active` keeps
the tasks that are not completed, `completed` those that are, `all` everything. -/
def matchesFilter (f : Filter) (t : Task) : Bool :=
  match f with
  | Filter.all => true
  | Filter.active => !t.completed
  | Filter.completed => t.completed

/-- The operation `project(collection, filterMode)` of the specification: every task matching
the filter paired with its position in the full collection, in full-collection order. -/
def project (c : List Task) (f : Filter) : List (Nat × Task) :=
  c.enum.filter (fun p => matchesFilter f p.2)

/-- The item a displayed task must be rendered as when both handlers are
bound to the full position `p.1`. -/
def itemAt (p : Nat × Task) : ViewItem :=
  { toggleIndex := (p.1 : Int), deleteIndex := (p.1 : Int), shown := p.2 }

/-! ## Observations used in the statements -/

/-- No task object is held by two slots of the array `tasks`.  Tasks with equal text, flag
and priority are distinct objects and satisfy this; it fails only if one and the same object
were stored twice, which no statement of the script does (`reachable_distinctObjects`). -/
abbrev DistinctObjects (s : State) : Prop :=
  s.tasks.Nodup

/-- Both lookups of lines 69-70 succeed on the markup built for a task: the `li` contains a
checkbox and a button. -/
def keepsControls (browser : Browser) (t : Task) : Bool :=
  browser.querySelector (itemMarkup t) "input" && browser.querySelector (itemMarkup t) "button"

/-- The markup of every task displayed under the current filter keeps its checkbox and its
button. -/
abbrev DisplayedIntact (s : State) : Prop :=
  ∀ t ∈ collection s, filterPredicate s.currentFilter t = true → keepsControls s.browser t = true

/-- The markup of every task of the collection keeps its checkbox and its button. -/
abbrev MarkupIntact (s : State) : Prop :=
  ∀ t ∈ collection s, keepsControls s.browser t = true

/-- The update `tasks[index].completed = !tasks[index].completed` on a task value. -/
def flipCompleted (t : Task) : Task :=
  { t with completed := !t.completed }

/-- The full positions shown under a filter: the handler arguments of the items displayed
once the filter button has been clicked. -/
def shownPositions (s : State) (f : Filter) : List Int :=
  (setFilter s f).view.items.map (fun item => item.toggleIndex)

/-- Number of `localStorage.setItem` calls recorded in a log. -/
def setItemCalls : List Event → Nat
  | [] => 0
  | Event.setItem _ _ :: es => setItemCalls es + 1
  | _ :: es => setItemCalls es

/-- Number of `confirm` prompts recorded in a log. -/
def confirmCalls : List Event → Nat
  | [] => 0
  | Event.confirm _ _ :: es => confirmCalls es + 1
  | _ :: es => confirmCalls es

/-- Whether a text contains the comment opener `<!--`. -/
def opensComment : List Char → Bool
  | [] => false
  | c :: cs => (c == '<' && cs.take 3 == ['!', '-', '-']) || opensComment cs

/-- The browser of the examples.  It answers as the HTML parser does on the markups met
there: the checkbox, which precedes the task text, is found; the button, which follows it, is
found for a text without markup and is not found when the text opens a comment, the rest of
the markup then being the content of that comment. -/
def sampleBrowser : Browser :=
  { querySelector := fun markup selector =>
      if selector = "button" then !opensComment markup.data else true
    untypedItem := fun _ => none }

/-- A first sample task. -/
def taskA : Task := { text := "a", completed := false, priority := "low" }

/-- A second sample task. -/
def taskB : Task := { text := "b", completed := false, priority := "high" }

/-- A task whose text opens an HTML comment. -/
def taskComment : Task := { text := "<!--", completed := false, priority := "low" }

/-- The page started on the stored collection `[taskA, taskB]`. -/
def twoTasks : State :=
  initState sampleBrowser [taskA, taskB] (some (stringify [taskA, taskB])) "" "medium"

/-- The page of `twoTasks` after the user typed `c` between blanks into the text field. -/
def typing : State :=
  step twoTasks (Action.typeText " c ")

/-- The page started on three tasks with the same text, flag and priority, the first one then
completed and the `active` filter selected: positions 1 and 2 hold equal tasks. -/
def sameTasks : State :=
  setFilter
    (toggleTask (initState sampleBrowser [taskA, taskA, taskA] none "  c  " "medium") 0 false)
    Filter.active

/-- The page of `twoTasks` after the user typed `<!--` and clicked Add. -/
def commentAdded : State :=
  addTask (step twoTasks (Action.typeText "<!--")) false

/-- The page started on the stored collection `[taskComment, taskB]`. -/
def commentFirst : State :=
  initState sampleBrowser [taskComment, taskB] none "" "medium"

/-- The page started on the stored collection made of `taskComment`, which is active, and of
`taskB` completed. -/
def commentMixed : State :=
  initState sampleBrowser [taskComment, flipCompleted taskB] none "" "medium"

/-! # Theorems -/

set_option maxRecDepth 100000

/-! ## Auxiliary lemmas -/

theorem filterPredicate_eq_matchesFilter (f : Filter) (t : Task) :
    filterPredicate f t = matchesFilter f t := by
  cases f <;> simp [filterPredicate, matchesFilter]

theorem indexOfFrom_of_nodup (r : Ref) :
    ∀ (xs : List Ref) (k i : Nat), xs.Nodup → xs[i]? = some r →
      indexOfFrom r xs k = ((k + i : Nat) : Int) := by
  intro xs
  induction xs with
  | nil => intro k i _ h; simp at h
  | cons x xs ih =>
    intro k i hnd h
    cases i with
    | zero =>
      simp at h
      simp [indexOfFrom, h]
    | succ i =>
      simp at h
      have hmem : r ∈ xs := (List.mem_iff_getElem?.mpr ⟨i, h⟩)
      have hne : x ≠ r := by
        intro hx
        subst hx
        exact (List.nodup_cons.mp hnd).1 hmem
      simp only [indexOfFrom, hne, if_false]
      rw [ih (k + 1) i (List.nodup_cons.mp hnd).2 h]
      congr 1
      omega

theorem filter_render_suffix (s : State) (hnd : s.tasks.Nodup) :
    ∀ (xs pre : List Ref), s.tasks = pre ++ xs →
      (xs.filter (fun task => filterPredicate s.currentFilter (s.heap task))).map (renderItem s) =
        (((xs.map s.heap).enumFrom pre.length).filter
          (fun p => matchesFilter s.currentFilter p.2)).map itemAt := by
  intro xs
  induction xs with
  | nil => intro pre _; simp
  | cons x xs ih =>
    intro pre hpre
    have hrec := ih (pre ++ [x]) (by simp [hpre])
    have hidx : indexOf s.tasks x = (pre.length : Int) := by
      have := indexOfFrom_of_nodup x s.tasks 0 pre.length hnd
        (by rw [hpre, List.getElem?_append_right (Nat.le_refl _)]; simp)
      simpa [indexOf] using this
    simp only [List.map_cons, List.enumFrom_cons, List.filter_cons,
      filterPredicate_eq_matchesFilter]
    simp only [List.length_append, List.length_singleton, filterPredicate_eq_matchesFilter] at hrec
    by_cases hm : matchesFilter s.currentFilter (s.heap x) = true
    · simp only [hm, if_true, List.map_cons, hrec]
      congr 1
      simp [renderItem, itemAt, hidx]
    · simp only [hm]
      exact hrec

theorem buildItem_of_keepsControls (s : State) (task : Ref)
    (h : keepsControls s.browser (s.heap task) = true) :
    buildItem s task = Except.ok (renderItem s task) := by
  simp only [keepsControls, Bool.and_eq_true] at h
  simp [buildItem, h.1, h.2]

theorem forEachItem_of_keepsControls (s : State) :
    ∀ xs : List Ref, (∀ r ∈ xs, keepsControls s.browser (s.heap r) = true) →
      forEachItem s xs = (xs.map (renderItem s), none) := by
  intro xs
  induction xs with
  | nil => intro _; rfl
  | cons x xs ih =>
    intro h
    have hx := buildItem_of_keepsControls s x (h x (List.mem_cons_self _ _))
    have hxs := ih (fun r hr => h r (List.mem_cons_of_mem _ hr))
    simp [forEachItem, hx, hxs]

theorem displayed_keepsControls (s : State) (hok : DisplayedIntact s) :
    ∀ r ∈ s.tasks.filter (fun task => filterPredicate s.currentFilter (s.heap task)),
      keepsControls s.browser (s.heap r) = true := by
  intro r hr
  obtain ⟨hmem, hp⟩ := List.mem_filter.mp hr
  exact hok (s.heap r) (List.mem_map.mpr ⟨r, hmem, rfl⟩) hp

theorem renderTasks_of_intact (s : State) (hok : DisplayedIntact s) :
    (renderTasks s).2 = none ∧
    (renderTasks s).1.view.items =
      (s.tasks.filter (fun task => filterPredicate s.currentFilter (s.heap task))).map
        (renderItem s) ∧
    (renderTasks s).1.view.counts = updateCount s := by
  have hfe := forEachItem_of_keepsControls s _ (displayed_keepsControls s hok)
  unfold renderTasks
  by_cases h : (s.tasks.filter
      (fun task => filterPredicate s.currentFilter (s.heap task))).length = 0
  · simp only [h, if_true]
    rw [List.length_eq_zero] at h
    simp [h]
  · simp only [h, if_false, hfe]
    exact ⟨trivial, trivial, trivial⟩

/-! ### Frame lemmas for rendering and saving -/

@[simp] theorem renderTasks_tasks (s : State) : (renderTasks s).1.tasks = s.tasks := by
  simp only [renderTasks]; split
  · rfl
  · split <;> rfl

@[simp] theorem renderTasks_heap (s : State) : (renderTasks s).1.heap = s.heap := by
  simp only [renderTasks]; split
  · rfl
  · split <;> rfl

@[simp] theorem renderTasks_storage (s : State) : (renderTasks s).1.storage = s.storage := by
  simp only [renderTasks]; split
  · rfl
  · split <;> rfl

@[simp] theorem renderTasks_log (s : State) : (renderTasks s).1.log = s.log := by
  simp only [renderTasks]; split
  · rfl
  · split <;> rfl

@[simp] theorem renderTasks_currentFilter (s : State) :
    (renderTasks s).1.currentFilter = s.currentFilter := by
  simp only [renderTasks]; split
  · rfl
  · split <;> rfl

@[simp] theorem renderTasks_browser (s : State) : (renderTasks s).1.browser = s.browser := by
  simp only [renderTasks]; split
  · rfl
  · split <;> rfl

@[simp] theorem renderTasks_taskInput (s : State) :
    (renderTasks s).1.taskInput = s.taskInput := by
  simp only [renderTasks]; split
  · rfl
  · split <;> rfl

@[simp] theorem renderTasks_prioritySelect (s : State) :
    (renderTasks s).1.prioritySelect = s.prioritySelect := by
  simp only [renderTasks]; split
  · rfl
  · split <;> rfl

@[simp] theorem renderUncaught_tasks (s : State) : (renderUncaught s).tasks = s.tasks := by
  simp only [renderUncaught]; split <;> simp

@[simp] theorem renderUncaught_heap (s : State) : (renderUncaught s).heap = s.heap := by
  simp only [renderUncaught]; split <;> simp

@[simp] theorem renderUncaught_browser (s : State) :
    (renderUncaught s).browser = s.browser := by
  simp only [renderUncaught]; split <;> simp

@[simp] theorem renderUncaught_currentFilter (s : State) :
    (renderUncaught s).currentFilter = s.currentFilter := by
  simp only [renderUncaught]; split <;> simp

theorem renderUncaught_view (s : State) : (renderUncaught s).view = (renderTasks s).1.view := by
  simp only [renderUncaught]; split <;> rfl

@[simp] theorem saveAndRender_tasks (s : State) (t : Bool) :
    (saveAndRender s t).tasks = s.tasks := by
  unfold saveAndRender
  cases t
  · simp only [Bool.false_eq_true, if_false]; split <;> simp
  · simp

@[simp] theorem saveAndRender_heap (s : State) (t : Bool) :
    (saveAndRender s t).heap = s.heap := by
  unfold saveAndRender
  cases t
  · simp only [Bool.false_eq_true, if_false]; split <;> simp
  · simp

@[simp] theorem saveAndRender_currentFilter (s : State) (t : Bool) :
    (saveAndRender s t).currentFilter = s.currentFilter := by
  unfold saveAndRender
  cases t
  · simp only [Bool.false_eq_true, if_false]; split <;> simp
  · simp

@[simp] theorem saveAndRender_browser (s : State) (t : Bool) :
    (saveAndRender s t).browser = s.browser := by
  unfold saveAndRender
  cases t
  · simp only [Bool.false_eq_true, if_false]; split <;> simp
  · simp

@[simp] theorem saveAndRender_taskInput (s : State) (t : Bool) :
    (saveAndRender s t).taskInput = s.taskInput := by
  unfold saveAndRender
  cases t
  · simp only [Bool.false_eq_true, if_false]; split <;> simp
  · simp

@[simp] theorem saveAndRender_prioritySelect (s : State) (t : Bool) :
    (saveAndRender s t).prioritySelect = s.prioritySelect := by
  unfold saveAndRender
  cases t
  · simp only [Bool.false_eq_true, if_false]; split <;> simp
  · simp

theorem saveAndRender_storage (s : State) (t : Bool) :
    (saveAndRender s t).storage = if t then s.storage else some (stringify (collection s)) := by
  unfold saveAndRender
  cases t
  · simp only [Bool.false_eq_true, if_false]; split <;> simp
  · simp

@[simp] theorem collection_renderTasks (s : State) :
    collection (renderTasks s).1 = collection s := by
  simp [collection]

@[simp] theorem collection_renderUncaught (s : State) :
    collection (renderUncaught s) = collection s := by
  simp [collection]

@[simp] theorem collection_saveAndRender (s : State) (t : Bool) :
    collection (saveAndRender s t) = collection s := by
  simp [collection]

/-! ### `splice` -/

theorem splice_one_inRange {α : Type} (xs : List α) (p : Nat) (h : p < xs.length) :
    splice xs (p : Int) 1 = xs.eraseIdx p := by
  have h1 : ¬ ((p : Int) < 0) := by omega
  have h2 : min (p : Int) (xs.length : Int) = (p : Int) := by omega
  have h3 : min (max (1 : Int) 0) ((xs.length : Int) - (p : Int)) = 1 := by omega
  simp only [splice, h1, if_false, h2, h3]
  simp [List.eraseIdx_eq_take_drop_succ]

theorem splice_one_beyond {α : Type} (xs : List α) (p : Int) (h : (xs.length : Int) ≤ p) :
    splice xs p 1 = xs := by
  have h1 : ¬ (p < 0) := by omega
  have h2 : min p (xs.length : Int) = (xs.length : Int) := by omega
  have h3 : min (max (1 : Int) 0) ((xs.length : Int) - (xs.length : Int)) = 0 := by omega
  simp only [splice, h1, if_false, h2, h3]
  simp

theorem splice_one_negative_length {α : Type} (xs : List α) (p : Int) (hp : p < 0)
    (hne : xs ≠ []) : (splice xs p 1).length + 1 = xs.length := by
  have hlen : 0 < xs.length := List.length_pos.mpr hne
  simp only [splice, hp, if_true]
  simp only [List.length_append, List.length_take, List.length_drop]
  omega

theorem splice_sublist {α : Type} (xs : List α) (p d : Int) : (splice xs p d).Sublist xs := by
  unfold splice
  simp only
  generalize (if p < 0 then max ((xs.length : Int) + p) 0 else min p (xs.length : Int)).toNat = a
  generalize (min (max d 0) ((xs.length : Int) -
    (if p < 0 then max ((xs.length : Int) + p) 0 else min p (xs.length : Int)))).toNat = b
  conv => rhs; rw [← List.take_append_drop a xs]
  refine List.Sublist.append (List.Sublist.refl _) ?_
  rw [← List.drop_drop]
  exact List.drop_sublist _ _

theorem lt_freshRef (xs : List Ref) : ∀ r ∈ xs, r < freshRef xs := by
  induction xs with
  | nil => intro r h; simp at h
  | cons x xs ih =>
    intro r h
    simp only [freshRef, List.foldr_cons]
    rcases List.mem_cons.mp h with h | h
    · subst h
      exact Nat.lt_of_lt_of_le (Nat.lt_succ_self r) (le_max_left _ _)
    · have := ih r h
      simp only [freshRef] at this
      exact Nat.lt_of_lt_of_le this (le_max_right _ _)

theorem freshRef_not_mem (xs : List Ref) : freshRef xs ∉ xs := by
  intro h
  exact Nat.lt_irrefl _ (lt_freshRef xs _ h)

theorem renderTasks_items_project (s : State) (hnd : s.tasks.Nodup) (hok : DisplayedIntact s) :
    (renderTasks s).1.view.items = (project (collection s) s.currentFilter).map itemAt := by
  rw [(renderTasks_of_intact s hok).2.1, filter_render_suffix s hnd s.tasks [] (by simp)]
  simp [project, collection, List.enum]

theorem displayedIntact_of_markupIntact (s : State) (f : Filter) (hok : MarkupIntact s) :
    DisplayedIntact { s with currentFilter := f } :=
  fun t ht _ => hok t ht

theorem shownPositions_eq (s : State) (f : Filter) (hnd : s.tasks.Nodup)
    (hok : MarkupIntact s) :
    shownPositions s f = (project (collection s) f).map (fun p => (p.1 : Int)) := by
  have h := renderTasks_items_project { s with currentFilter := f } hnd
    (displayedIntact_of_markupIntact s f hok)
  simp only [shownPositions, setFilter, renderUncaught_view, h, List.map_map]
  rfl

theorem shownPositions_length (s : State) (f : Filter) (hok : MarkupIntact s) :
    (shownPositions s f).length =
      (s.tasks.filter (fun r => filterPredicate f (s.heap r))).length := by
  have h := (renderTasks_of_intact { s with currentFilter := f }
    (displayedIntact_of_markupIntact s f hok)).2.1
  simp only [shownPositions, setFilter, renderUncaught_view, h, List.length_map]

theorem project_active_append_completed (c : List Task) :
    (project c Filter.active ++ project c Filter.completed).Perm (project c Filter.all) := by
  have h := List.filter_append_perm (fun p : Nat × Task => !p.2.completed) c.enum
  have hall : project c Filter.all = c.enum := by
    simp [project, matchesFilter]
  rw [hall]
  simpa [project, matchesFilter] using h

theorem setItemCalls_append (xs ys : List Event) :
    setItemCalls (xs ++ ys) = setItemCalls xs + setItemCalls ys := by
  induction xs with
  | nil => simp [setItemCalls]
  | cons e es ih => cases e <;> simp [setItemCalls, ih, Nat.add_right_comm]

theorem confirmCalls_append (xs ys : List Event) :
    confirmCalls (xs ++ ys) = confirmCalls xs + confirmCalls ys := by
  induction xs with
  | nil => simp [confirmCalls]
  | cons e es ih => cases e <;> simp [confirmCalls, ih, Nat.add_right_comm]

theorem renderTasks_of_no_tasks (s : State) (h : s.tasks = []) : (renderTasks s).2 = none := by
  simp [renderTasks, h]

theorem saveAndRender_log_of_no_tasks (s : State) (t : Bool) (h : s.tasks = []) :
    (saveAndRender s t).log =
      s.log ++ (if t then
        [Event.setItem (stringify (collection s)) true, Event.consoleError "Failed to save tasks"]
      else [Event.setItem (stringify (collection s)) false]) := by
  cases t
  · have hr := renderTasks_of_no_tasks
      { s with storage := some (stringify (collection s)),
               log := s.log ++ [Event.setItem (stringify (collection s)) false] } h
    simp only [saveAndRender, Bool.false_eq_true, if_false, hr, renderTasks_log]
  · simp [saveAndRender]

theorem saveAndRender_throws_view (s : State) : (saveAndRender s true).view = s.view := by
  simp [saveAndRender]

/-! ### Deleting at an invalid position -/

theorem deleteTask_negative_removes (s : State) (index : Int) (setItemThrows : Bool)
    (hneg : index < 0) (hne : s.tasks ≠ []) :
    (collection (deleteTask s index setItemThrows)).length + 1 = (collection s).length := by
  simp only [collection, List.length_map, deleteTask, saveAndRender_tasks]
  exact splice_one_negative_length s.tasks index hneg hne

/-! ### A failing write -/

theorem saveAndRender_throws_frame (s : State) :
    (saveAndRender s true).tasks = s.tasks ∧ (saveAndRender s true).heap = s.heap ∧
    (saveAndRender s true).storage = s.storage ∧ (saveAndRender s true).view = s.view ∧
    (saveAndRender s true).log =
      s.log ++ [Event.setItem (stringify (collection s)) true,
        Event.consoleError "Failed to save tasks"] := by
  simp [saveAndRender, collection]

/-! ### Startup -/

theorem startup_absent (browser : Browser) :
    startup browser none = Except.ok (JSValue.array []) := rfl

theorem startup_empty_text (browser : Browser) :
    startup browser (some "") = Except.ok (JSValue.array []) := rfl

theorem load_unparsable (text : String) (h : JSON.parse text = Except.error JSError.syntaxError) :
    (load (some text)).1 = JSValue.array [] := by
  unfold load
  by_cases he : text = ""
  · simp [he]
  · simp [he, h]

theorem startup_unparsable (browser : Browser) (text : String)
    (h : JSON.parse text = Except.error JSError.syntaxError) :
    startup browser (some text) = Except.ok (JSValue.array []) := by
  unfold startup
  rw [load_unparsable text h]
  rfl

theorem load_parsed (text : String) (v : JSValue) (hne : text ≠ "")
    (h : JSON.parse text = Except.ok v) : (load (some text)).1 = v := by
  simp [load, hne, h]

theorem startup_throws_of_non_array (browser : Browser) (text : String) (v : JSValue)
    (hne : text ≠ "") (h : JSON.parse text = Except.ok v)
    (hv : ∀ elems, v ≠ JSValue.array elems) :
    ∃ e, startup browser (some text) = Except.error e := by
  unfold startup
  rw [load_parsed text v hne h]
  cases v with
  | array elems => exact absurd rfl (hv elems)
  | null => exact ⟨_, rfl⟩
  | bool b => exact ⟨_, rfl⟩
  | number l => exact ⟨_, rfl⟩
  | string x => exact ⟨_, rfl⟩
  | object ps => exact ⟨_, rfl⟩

theorem renderItemJS_asTask (browser : Browser) (v : JSValue) (t : Task)
    (h : asTask v = some t) (hk : keepsControls browser t = true) :
    renderItemJS browser v = Except.ok () ∧ ∃ w, getProp v "completed" = Except.ok w := by
  simp only [keepsControls, Bool.and_eq_true] at hk
  cases v with
  | object props =>
    refine ⟨?_, _, rfl⟩
    simp [renderItemJS, getProp, lookupControlsJS, h, hk.1, hk.2]
  | null => simp [asTask] at h
  | bool b => simp [asTask] at h
  | number l => simp [asTask] at h
  | string x => simp [asTask] at h
  | array xs => simp [asTask] at h

theorem forEachItemJS_asTasks (browser : Browser) :
    ∀ (elems : List JSValue) (ts : List Task), asTasks elems = some ts →
      (∀ t ∈ ts, keepsControls browser t = true) →
      forEachItemJS browser elems = Except.ok () ∧ readCompletedJS elems = Except.ok () := by
  intro elems
  induction elems with
  | nil => intro ts _ _; exact ⟨rfl, rfl⟩
  | cons v vs ih =>
    intro ts h hk
    simp only [asTasks] at h
    cases hv : asTask v with
    | none => simp [hv] at h
    | some t =>
      cases hvs : asTasks vs with
      | none => simp [hv, hvs] at h
      | some rest =>
        simp only [hv, hvs, Option.some.injEq] at h
        subst h
        obtain ⟨h1, h2⟩ := ih rest hvs (fun u hu => hk u (List.mem_cons_of_mem _ hu))
        obtain ⟨h3, w, h4⟩ := renderItemJS_asTask browser v t hv (hk t (List.mem_cons_self _ _))
        simp [forEachItemJS, readCompletedJS, h1, h2, h3, h4]

theorem initialRender_asCollection (browser : Browser) (v : JSValue) (ts : List Task)
    (h : asCollection v = some ts) (hk : ∀ t ∈ ts, keepsControls browser t = true) :
    initialRender browser v = Except.ok () := by
  cases v with
  | array elems =>
    simp only [asCollection] at h
    obtain ⟨h1, h2⟩ := forEachItemJS_asTasks browser elems ts h hk
    simp only [initialRender, h1, h2]
    split <;> rfl
  | null => simp [asCollection] at h
  | bool b => simp [asCollection] at h
  | number l => simp [asCollection] at h
  | string x => simp [asCollection] at h
  | object ps => simp [asCollection] at h

/-! ### The array never holds an object twice -/

theorem initState_nodup (browser : Browser) (ts : List Task) (saved : Option String)
    (input priority : String) : (initState browser ts saved input priority).tasks.Nodup := by
  simp [initState, List.nodup_range]

theorem step_nodup (s : State) (a : Action) (h : s.tasks.Nodup) : (step s a).tasks.Nodup := by
  cases a with
  | typeText v => exact h
  | selectPriority v => exact h
  | clickAdd t =>
    simp only [step, addTask]
    split
    · exact h
    · simp only [saveAndRender_tasks]
      exact List.Nodup.append h (List.nodup_singleton _)
        (by
          intro r hr hr2
          rw [List.mem_singleton] at hr2
          subst hr2
          exact freshRef_not_mem s.tasks hr)
  | clickToggle index t =>
    simp only [step, toggleTask]
    split
    · exact h
    · split <;> simpa using h
  | clickDelete index t =>
    simp only [step, deleteTask, saveAndRender_tasks]
    exact (splice_sublist s.tasks index 1).nodup h
  | clickClearCompleted t =>
    simp only [step, clearCompleted, saveAndRender_tasks]
    exact h.filter _
  | clickClearAll a t =>
    simp only [step, clearAll]
    split
    · exact h
    · split
      · simp
      · exact h
  | clickFilter f =>
    simpa [step, setFilter] using h

theorem foldl_step_nodup (actions : List Action) :
    ∀ s : State, s.tasks.Nodup → (actions.foldl step s).tasks.Nodup := by
  induction actions with
  | nil => intro s h; exact h
  | cons a more ih => intro s h; exact ih (step s a) (step_nodup s a h)

theorem reachable_distinctObjects (s : State) (h : Reachable s) : DistinctObjects s := by
  obtain ⟨browser, ts, saved, input, priority, actions, rfl⟩ := h
  exact foldl_step_nodup actions _ (initState_nodup browser ts saved input priority)

theorem reachable_initState (browser : Browser) (ts : List Task) (saved : Option String)
    (input priority : String) : Reachable (initState browser ts saved input priority) :=
  ⟨browser, ts, saved, input, priority, [], rfl⟩

theorem collection_initState (browser : Browser) (ts : List Task) (saved : Option String)
    (input priority : String) : collection (initState browser ts saved input priority) = ts := by
  simp only [initState, collection, renderUncaught_tasks, renderUncaught_heap]
  apply List.ext_getElem?
  intro i
  simp only [List.getElem?_map, List.getD_eq_getElem?_getD]
  by_cases hi : i < ts.length
  · simp [List.getElem?_range hi, List.getElem?_eq_getElem hi]
  · have h1 : (List.range ts.length)[i]? = none := by
      apply List.getElem?_eq_none
      simpa using hi
    have h2 : ts[i]? = none := List.getElem?_eq_none (by omega)
    simp [h1, h2]

/-! ### The handlers never carry a negative index -/

theorem indexOfFrom_ge (r : Ref) :
    ∀ (xs : List Ref) (k : Nat), r ∈ xs → (k : Int) ≤ indexOfFrom r xs k := by
  intro xs
  induction xs with
  | nil => intro k h; simp at h
  | cons x xs ih =>
    intro k h
    simp only [indexOfFrom]
    by_cases hx : x = r
    · simp [hx]
    · simp only [hx, if_false]
      have hmem : r ∈ xs := by
        rcases List.mem_cons.mp h with h1 | h1
        · exact absurd h1.symm hx
        · exact h1
      have := ih (k + 1) hmem
      omega

theorem forEachItem_indices (s : State) :
    ∀ xs : List Ref, (∀ r ∈ xs, r ∈ s.tasks) →
      ∀ item ∈ (forEachItem s xs).1, 0 ≤ item.deleteIndex ∧ item.toggleIndex = item.deleteIndex := by
  intro xs
  induction xs with
  | nil => intro _ item h; simp [forEachItem] at h
  | cons x xs ih =>
    intro hmem item h
    simp only [forEachItem] at h
    cases hb : buildItem s x with
    | error e => simp [hb] at h
    | ok built =>
      simp only [hb, List.mem_cons] at h
      rcases h with h | h
      · subst h
        have hbuilt : item = renderItem s x := by
          simp only [buildItem] at hb
          split at hb
          · cases hb
          · split at hb
            · cases hb
            · cases hb; rfl
        subst hbuilt
        have := indexOfFrom_ge x s.tasks 0 (hmem x (List.mem_cons_self _ _))
        exact ⟨by simpa [renderItem, indexOf] using this, rfl⟩
      · exact ih (fun r hr => hmem r (List.mem_cons_of_mem _ hr)) item h

theorem renderTasks_view_indices (s : State) :
    ∀ item ∈ (renderTasks s).1.view.items,
      0 ≤ item.deleteIndex ∧ item.toggleIndex = item.deleteIndex := by
  have hfe := forEachItem_indices s
    (s.tasks.filter (fun task => filterPredicate s.currentFilter (s.heap task)))
    (fun r hr => (List.mem_filter.mp hr).1)
  intro item h
  simp only [renderTasks] at h
  split at h
  · simp at h
  · split at h
    · exact hfe item h
    · exact hfe item h

theorem saveAndRender_view_indices (s : State) (t : Bool)
    (h : ∀ item ∈ s.view.items, 0 ≤ item.deleteIndex ∧ item.toggleIndex = item.deleteIndex) :
    ∀ item ∈ (saveAndRender s t).view.items,
      0 ≤ item.deleteIndex ∧ item.toggleIndex = item.deleteIndex := by
  cases t
  · simp only [saveAndRender, Bool.false_eq_true, if_false]
    split
    · exact renderTasks_view_indices _
    · exact renderTasks_view_indices _
  · simpa [saveAndRender] using h

theorem step_view_indices (s : State) (a : Action)
    (h : ∀ item ∈ s.view.items, 0 ≤ item.deleteIndex ∧ item.toggleIndex = item.deleteIndex) :
    ∀ item ∈ (step s a).view.items,
      0 ≤ item.deleteIndex ∧ item.toggleIndex = item.deleteIndex := by
  cases a with
  | typeText v => exact h
  | selectPriority v => exact h
  | clickAdd t =>
    simp only [step, addTask]
    split
    · exact h
    · exact saveAndRender_view_indices _ t (by simpa using h)
  | clickToggle index t =>
    simp only [step, toggleTask]
    split
    · exact h
    · split
      · exact saveAndRender_view_indices _ t (by simpa using h)
      · exact saveAndRender_view_indices _ t (by simpa using h)
  | clickDelete index t =>
    exact saveAndRender_view_indices _ t (by simpa using h)
  | clickClearCompleted t =>
    exact saveAndRender_view_indices _ t (by simpa using h)
  | clickClearAll a t =>
    simp only [step, clearAll]
    split
    · exact h
    · split
      · exact saveAndRender_view_indices _ t (by simpa using h)
      · exact h
  | clickFilter f =>
    simp only [step, setFilter, renderUncaught_view]
    exact renderTasks_view_indices _

theorem reachable_view_indices (s : State) (h : Reachable s) :
    ∀ item ∈ s.view.items, 0 ≤ item.deleteIndex ∧ item.toggleIndex = item.deleteIndex := by
  obtain ⟨browser, ts, saved, input, priority, actions, rfl⟩ := h
  have hinit : ∀ item ∈ (initState browser ts saved input priority).view.items,
      0 ≤ item.deleteIndex ∧ item.toggleIndex = item.deleteIndex := by
    simp only [initState, renderUncaught_view]
    exact renderTasks_view_indices _
  generalize initState browser ts saved input priority = s0 at hinit
  induction actions generalizing s0 with
  | nil => exact hinit
  | cons a more ih => exact ih (step s0 a) (step_view_indices s0 a hinit)

/-! ## Properties of the task store, the view projector and the persistence adapter -/

/-- C1 (amended): whenever the array holds each task object once and the markup of every
displayed task keeps its checkbox and its button, `renderTasks` throws nothing, displays exactly
the tasks matching the current filter, in full-collection order, and binds both the toggle and
the delete handler of each displayed task to that task's own position in the full collection;
tasks with equal text, flag and priority are told apart because `indexOf` compares objects. -/
theorem renderTasks_binds_full_position (s : State) (hnd : DistinctObjects s)
    (hok : DisplayedIntact s) :
    (renderTasks s).2 = none ∧
    (renderTasks s).1.view.items = (project (collection s) s.currentFilter).map itemAt :=
  ⟨(renderTasks_of_intact s hok).1, renderTasks_items_project s hnd hok⟩

/-- C1 as stated fails: after the user has added a task with the text `<!--` to
`[taskA, taskB]`, the three tasks match the filter `all`, but building the third item throws
(its markup has no button left) and only the first two are displayed; on the stored collection
`[taskComment, taskB]` the first item already throws and nothing is displayed. -/
theorem renderTasks_drops_items_on_broken_markup :
    DistinctObjects commentAdded ∧
    commentAdded.taskInput = "" ∧
    collection commentAdded =
      [taskA, taskB, { text := "<!--", completed := false, priority := "medium" }] ∧
    (project (collection commentAdded) commentAdded.currentFilter).map itemAt =
      [{ toggleIndex := 0, deleteIndex := 0, shown := taskA },
       { toggleIndex := 1, deleteIndex := 1, shown := taskB },
       { toggleIndex := 2, deleteIndex := 2,
         shown := { text := "<!--", completed := false, priority := "medium" } }] ∧
    (renderTasks commentAdded).1.view.items =
      [{ toggleIndex := 0, deleteIndex := 0, shown := taskA },
       { toggleIndex := 1, deleteIndex := 1, shown := taskB }] ∧
    (renderTasks commentAdded).2 =
      some (JSError.typeError "Cannot read properties of null (reading addEventListener)") ∧
    (renderTasks commentAdded).1.view.items ≠
      (project (collection commentAdded) commentAdded.currentFilter).map itemAt ∧
    DistinctObjects commentFirst ∧
    (renderTasks commentFirst).1.view.items = [] ∧
    (renderTasks commentFirst).1.view.items ≠
      (project (collection commentFirst) commentFirst.currentFilter).map itemAt := by
  refine ⟨by decide, by decide, by decide, by decide, by decide, by decide, by decide,
    by decide, by decide, by decide⟩

/-- C2 (amended): for a position greater than or equal to the length, `deleteTask` is a no-op
on the collection: the array holds the same objects in the same order, no object is modified,
and the collection and its length are unchanged. -/
theorem deleteTask_beyond_length_noop (s : State) (index : Int) (setItemThrows : Bool)
    (h : (s.tasks.length : Int) ≤ index) :
    (deleteTask s index setItemThrows).tasks = s.tasks ∧
    (deleteTask s index setItemThrows).heap = s.heap ∧
    collection (deleteTask s index setItemThrows) = collection s ∧
    (collection (deleteTask s index setItemThrows)).length = (collection s).length := by
  have ht : (deleteTask s index setItemThrows).tasks = s.tasks := by
    simp [deleteTask, splice_one_beyond s.tasks index h]
  have hh : (deleteTask s index setItemThrows).heap = s.heap := by
    simp [deleteTask]
  have hc : collection (deleteTask s index setItemThrows) = collection s := by
    simp only [collection, ht, hh]
  exact ⟨ht, hh, hc, by rw [hc]⟩

/-- C2 as stated fails for negative positions: on the collection `[taskA, taskB]` the call
`deleteTask(-1)` removes the last task and `deleteTask(-5)` removes the first one, as
`splice` counts a negative start from the end. -/
theorem deleteTask_negative_index_removes_a_task :
    collection twoTasks = [taskA, taskB] ∧
    ((-1 : Int) < 0 ∧ collection (deleteTask twoTasks (-1) false) = [taskA] ∧
      collection (deleteTask twoTasks (-1) false) ≠ collection twoTasks) ∧
    ((-5 : Int) < 0 ∧ collection (deleteTask twoTasks (-5) false) = [taskB] ∧
      collection (deleteTask twoTasks (-5) false) ≠ collection twoTasks) := by
  refine ⟨by decide, ⟨by decide, by decide, by decide⟩, ⟨by decide, by decide, by decide⟩⟩

/-- C3: `toggleTask` on a position outside `[0, length)` returns the state untouched; on a
position inside, with each task object held once, the array keeps its objects and order, the
length is unchanged, and the collection differs only at that position, where the task has its
`completed` flag negated and its text and priority kept. -/
theorem toggleTask_flips_only_position (s : State) (index : Int) (setItemThrows : Bool) :
    ((index < 0 ∨ (s.tasks.length : Int) ≤ index) → toggleTask s index setItemThrows = s) ∧
    ((0 ≤ index ∧ index < (s.tasks.length : Int)) → DistinctObjects s →
      (toggleTask s index setItemThrows).tasks = s.tasks ∧
      (collection (toggleTask s index setItemThrows)).length = (collection s).length ∧
      (∀ j : Nat, (collection (toggleTask s index setItemThrows))[j]? =
        if j = index.toNat then ((collection s)[j]?).map flipCompleted
        else (collection s)[j]?)) := by
  constructor
  · intro h
    have h' : index < 0 ∨ index ≥ (s.tasks.length : Int) := h
    simp [toggleTask, h']
  · rintro ⟨h0, h1⟩ hnd
    have hn : ¬ (index < 0 ∨ index ≥ (s.tasks.length : Int)) := by omega
    have hp : index.toNat < s.tasks.length := by omega
    have htasks : (toggleTask s index setItemThrows).tasks = s.tasks := by
      simp only [toggleTask, hn, dite_false]
      split <;> simp
    have hheap : (toggleTask s index setItemThrows).heap =
        Function.update s.heap (s.tasks.get ⟨index.toNat, hp⟩)
          (flipCompleted (s.heap (s.tasks.get ⟨index.toNat, hp⟩))) := by
      simp only [toggleTask, hn, dite_false]
      split <;> simp [flipCompleted]
    refine ⟨htasks, by simp [collection, htasks], ?_⟩
    intro j
    simp only [collection, htasks, hheap, List.getElem?_map]
    by_cases hj : j = index.toNat
    · subst hj
      simp only [if_true]
      rw [List.getElem?_eq_getElem hp]
      simp
    · simp only [hj, if_false]
      cases hget : s.tasks[j]? with
      | none => rfl
      | some r =>
        have hjlt : j < s.tasks.length := by
          rcases List.getElem?_eq_some_iff.mp hget with ⟨hl, _⟩
          exact hl
        have hr : s.tasks[j] = r := by
          rcases List.getElem?_eq_some_iff.mp hget with ⟨_, he⟩
          exact he
        have hne : r ≠ s.tasks.get ⟨index.toNat, hp⟩ := by
          intro he
          apply hj
          have := (@List.Nodup.getElem_inj_iff _ _ hnd j hjlt index.toNat hp).mp
            (by rw [hr, he]; rfl)
          exact this
        have hne2 : r ≠ s.tasks[index.toNat] := hne
        simp [Function.update_noteq hne2]

/-- C4: when the trimmed input is empty (as for `""` and `"   "`) `addTask` returns the state
untouched; otherwise the new array is the old one followed by one new object, and the
collection is the old collection followed by the task made of the trimmed text, `completed`
false and the selected priority, so the length grows by one and earlier tasks keep their
positions. -/
theorem addTask_appends_trimmed (s : State) (setItemThrows : Bool) :
    trim "" = "" ∧ trim "   " = "" ∧
    (trim s.taskInput = "" → addTask s setItemThrows = s) ∧
    (trim s.taskInput ≠ "" →
      (∃ r : Ref, r ∉ s.tasks ∧ (addTask s setItemThrows).tasks = s.tasks ++ [r]) ∧
      collection (addTask s setItemThrows) =
        collection s ++
          [{ text := trim s.taskInput, completed := false, priority := s.prioritySelect }] ∧
      (collection (addTask s setItemThrows)).length = (collection s).length + 1 ∧
      (∀ i : Nat, i < (collection s).length →
        (collection (addTask s setItemThrows))[i]? = (collection s)[i]?)) := by
  refine ⟨by decide, by decide, ?_, ?_⟩
  · intro h
    simp [addTask, h]
  · intro h
    have htasks : (addTask s setItemThrows).tasks = s.tasks ++ [freshRef s.tasks] := by
      simp [addTask, h]
    have hcoll : collection (addTask s setItemThrows) =
        collection s ++
          [{ text := trim s.taskInput, completed := false, priority := s.prioritySelect }] := by
      simp only [collection, addTask, h, if_false, saveAndRender_tasks, saveAndRender_heap,
        List.map_append, List.map_cons, List.map_nil, Function.update_same]
      congr 1
      apply List.map_congr_left
      intro r hr
      have hne : r ≠ freshRef s.tasks := by
        intro he
        rw [he] at hr
        exact freshRef_not_mem s.tasks hr
      simp [Function.update_noteq hne]
    refine ⟨⟨freshRef s.tasks, freshRef_not_mem s.tasks, htasks⟩, hcoll, ?_, ?_⟩
    · simp [hcoll]
    · intro i hi
      rw [hcoll, List.getElem?_append_left hi]

/-- C5: with `[taskA, taskB]` displayed and `localStorage.setItem` throwing, `addTask` on the
input `c` keeps its in-memory result of three tasks and the exception is caught and logged, but
the view is not recomputed: it still is the view of before the call, with two items, and
differs from what `renderTasks` shows for the new collection.  The same happens for
`deleteTask(0)`: the collection becomes `[taskB]` while the page keeps showing both tasks. -/
theorem failed_write_leaves_view_stale :
    collection (addTask typing true) =
      [taskA, taskB, { text := "c", completed := false, priority := "medium" }] ∧
    (addTask typing true).log =
      [Event.setItem
        (stringify [taskA, taskB, { text := "c", completed := false, priority := "medium" }])
        true,
       Event.consoleError "Failed to save tasks", Event.focusInput] ∧
    (addTask typing true).view = typing.view ∧
    (addTask typing true).view.items =
      [{ toggleIndex := 0, deleteIndex := 0, shown := taskA },
       { toggleIndex := 1, deleteIndex := 1, shown := taskB }] ∧
    (renderTasks (addTask typing true)).1.view.items =
      [{ toggleIndex := 0, deleteIndex := 0, shown := taskA },
       { toggleIndex := 1, deleteIndex := 1, shown := taskB },
       { toggleIndex := 2, deleteIndex := 2,
         shown := { text := "c", completed := false, priority := "medium" } }] ∧
    (addTask typing true).view ≠ (renderTasks (addTask typing true)).1.view ∧
    collection (deleteTask twoTasks 0 true) = [taskB] ∧
    (deleteTask twoTasks 0 true).view = twoTasks.view ∧
    (deleteTask twoTasks 0 true).view ≠ (renderTasks (deleteTask twoTasks 0 true)).1.view := by
  refine ⟨by decide, by decide, by decide, by decide, by decide, by decide, by decide,
    by decide, by decide⟩

/-- C6: with the text `null` stored under the key `tasks`, the load assigns `null` to
`tasks`, not the empty array, and the initial render throws a `TypeError`; the stored texts
`42`, the empty object and `[null]` make startup throw as well.  An absent key and a text
that does not parse do give the empty array and a startup without exception
(`startup_absent`, `startup_unparsable`).  All of this holds whatever the browser's HTML
parser does. -/
theorem startup_throws_on_parsable_non_collection (browser : Browser) :
    (load (some "null")).1 = JSValue.null ∧
    startup browser (some "null") =
      Except.error (JSError.typeError "Cannot read properties of null (reading filter)") ∧
    startup browser (some "42") =
      Except.error (JSError.typeError "tasks.filter is not a function") ∧
    startup browser (some "\x7b\x7d") =
      Except.error (JSError.typeError "tasks.filter is not a function") ∧
    startup browser (some "[null]") =
      Except.error (JSError.typeError "Cannot read properties of null (reading priority)") ∧
    startup browser none = Except.ok (JSValue.array []) ∧
    startup browser (some "[oops") = Except.ok (JSValue.array []) :=
  ⟨rfl, rfl, rfl, rfl, rfl, rfl, rfl⟩

/-- C7: `clearCompleted` leaves exactly the subsequence of tasks whose `completed` flag is
false, in their original order: the surviving slots are a sublist of the old array, no survivor
is completed, no object is modified. -/
theorem clearCompleted_keeps_incomplete (s : State) (setItemThrows : Bool) :
    collection (clearCompleted s setItemThrows) =
      (collection s).filter (fun t => !t.completed) ∧
    (clearCompleted s setItemThrows).tasks = s.tasks.filter (fun r => !(s.heap r).completed) ∧
    (clearCompleted s setItemThrows).tasks.Sublist s.tasks ∧
    (clearCompleted s setItemThrows).heap = s.heap ∧
    (∀ t ∈ collection (clearCompleted s setItemThrows), t.completed = false) ∧
    (∀ t : Task, t.completed = false →
      (collection (clearCompleted s setItemThrows)).count t = (collection s).count t) := by
  have htasks : (clearCompleted s setItemThrows).tasks =
      s.tasks.filter (fun r => !(s.heap r).completed) := by
    simp [clearCompleted]
  have hheap : (clearCompleted s setItemThrows).heap = s.heap := by
    simp [clearCompleted]
  have hcoll : collection (clearCompleted s setItemThrows) =
      (collection s).filter (fun t => !t.completed) := by
    simp only [collection, htasks, hheap, List.filter_map]
    rfl
  refine ⟨hcoll, htasks, ?_, hheap, ?_, ?_⟩
  · rw [htasks]; exact List.filter_sublist _
  · intro t ht
    rw [hcoll] at ht
    simpa using (List.mem_filter.mp ht).2
  · intro t ht
    rw [hcoll, List.count_filter]
    simp [ht]

/-- C8: `clearAll` on an empty collection returns the state untouched (no prompt, no write);
on a non-empty one it prompts once, and when the answer is no it changes neither the
collection nor the stored data and makes no write, while on yes the collection becomes empty
and `setItem` is called once with the serialized empty array.  Hence the collection changes
or a write happens only if the collection was non-empty and the user confirmed. -/
theorem clearAll_guarded (s : State) (confirmAnswer setItemThrows : Bool) :
    (s.tasks = [] → clearAll s confirmAnswer setItemThrows = s) ∧
    (s.tasks ≠ [] →
      confirmCalls (clearAll s confirmAnswer setItemThrows).log = confirmCalls s.log + 1) ∧
    (s.tasks ≠ [] → confirmAnswer = false →
      (clearAll s confirmAnswer setItemThrows).tasks = s.tasks ∧
      (clearAll s confirmAnswer setItemThrows).heap = s.heap ∧
      (clearAll s confirmAnswer setItemThrows).storage = s.storage ∧
      (clearAll s confirmAnswer setItemThrows).log =
        s.log ++ [Event.confirm "Delete all tasks?" false]) ∧
    (s.tasks ≠ [] → confirmAnswer = true →
      collection (clearAll s confirmAnswer setItemThrows) = [] ∧
      (clearAll s confirmAnswer setItemThrows).log =
        s.log ++ [Event.confirm "Delete all tasks?" true] ++
          (if setItemThrows then
            [Event.setItem "[]" true, Event.consoleError "Failed to save tasks"]
          else [Event.setItem "[]" false]) ∧
      (setItemThrows = false →
        (clearAll s confirmAnswer setItemThrows).storage = some "[]")) ∧
    ((collection (clearAll s confirmAnswer setItemThrows) ≠ collection s ∨
        (clearAll s confirmAnswer setItemThrows).storage ≠ s.storage ∨
        setItemCalls (clearAll s confirmAnswer setItemThrows).log ≠ setItemCalls s.log) →
      s.tasks ≠ [] ∧ confirmAnswer = true) := by
  have hempty : s.tasks = [] → clearAll s confirmAnswer setItemThrows = s := by
    intro h
    simp [clearAll, h]
  have hno : s.tasks ≠ [] → confirmAnswer = false →
      clearAll s confirmAnswer setItemThrows =
        { s with log := s.log ++ [Event.confirm "Delete all tasks?" false] } := by
    intro h ha
    subst ha
    simp [clearAll, h]
  have hstr : stringify [] = "[]" := by decide
  refine ⟨hempty, ?_, ?_, ?_, ?_⟩
  · intro h
    cases confirmAnswer
    · rw [hno h rfl]
      simp [confirmCalls_append, confirmCalls]
    · simp only [clearAll, List.length_eq_zero, h, if_false, if_true]
      rw [saveAndRender_log_of_no_tasks _ _ rfl]
      cases setItemThrows <;> simp [confirmCalls_append, confirmCalls]
  · intro h ha
    rw [hno h ha]
    exact ⟨rfl, rfl, rfl, rfl⟩
  · intro h ha
    subst ha
    refine ⟨?_, ?_, ?_⟩
    · simp [clearAll, h, collection]
    · simp only [clearAll, List.length_eq_zero, h, if_false, if_true]
      rw [saveAndRender_log_of_no_tasks _ _ rfl]
      cases setItemThrows <;> simp [collection, hstr]
    · intro ht
      subst ht
      simp [clearAll, h, saveAndRender_storage, collection, hstr]
  · intro hchg
    by_cases h : s.tasks = []
    · rw [hempty h] at hchg
      simp at hchg
    · refine ⟨h, ?_⟩
      cases confirmAnswer
      · rw [hno h rfl] at hchg
        simp [collection, setItemCalls_append, setItemCalls] at hchg
      · rfl

/-- C9: for a position inside the collection, `deleteTask` removes exactly the task at that
position: the array and the collection lose that one slot, the length drops by one, the tasks
before it keep their positions, those after it move down by one, and no object is modified. -/
theorem deleteTask_removes_position (s : State) (index : Int) (setItemThrows : Bool)
    (h0 : 0 ≤ index) (h1 : index < (s.tasks.length : Int)) :
    (deleteTask s index setItemThrows).tasks = s.tasks.eraseIdx index.toNat ∧
    (deleteTask s index setItemThrows).heap = s.heap ∧
    collection (deleteTask s index setItemThrows) = (collection s).eraseIdx index.toNat ∧
    (collection (deleteTask s index setItemThrows)).length + 1 = (collection s).length ∧
    (∀ i : Nat, i < index.toNat →
      (collection (deleteTask s index setItemThrows))[i]? = (collection s)[i]?) ∧
    (∀ i : Nat, index.toNat ≤ i →
      (collection (deleteTask s index setItemThrows))[i]? = (collection s)[i + 1]?) := by
  obtain ⟨p, rfl⟩ := Int.eq_ofNat_of_zero_le h0
  have hp : p < s.tasks.length := by omega
  have htasks : (deleteTask s (p : Int) setItemThrows).tasks = s.tasks.eraseIdx p := by
    simp [deleteTask, splice_one_inRange s.tasks p hp]
  have hheap : (deleteTask s (p : Int) setItemThrows).heap = s.heap := by
    simp [deleteTask]
  have hcoll : collection (deleteTask s (p : Int) setItemThrows) = (collection s).eraseIdx p := by
    simp only [collection, htasks, hheap]
    rw [List.eraseIdx_eq_take_drop_succ, List.eraseIdx_eq_take_drop_succ]
    simp [List.map_take, List.map_drop]
  refine ⟨htasks, hheap, hcoll, ?_, ?_, ?_⟩
  · rw [hcoll, List.length_eraseIdx]
    have : p < (collection s).length := by simpa [collection] using hp
    simp only [Int.toNat_ofNat, this, if_true]
    omega
  · intro i hi
    rw [hcoll]
    simp only [Int.toNat_ofNat] at hi ⊢
    rw [List.getElem?_eraseIdx]
    simp [hi]
  · intro i hi
    rw [hcoll]
    simp only [Int.toNat_ofNat] at hi ⊢
    rw [List.getElem?_eraseIdx]
    have : ¬ i < p := by omega
    simp [this]

/-- C10 (amended): whenever the array holds each task object once and the markup of every
task keeps its checkbox and its button, the full positions shown under `all` are all the
positions of the collection; those shown under `active` and under `completed` are disjoint and
together a rearrangement of them, so every position is shown in exactly one of the two views;
and the counts of `updateCount` satisfy `active + completed = total`, with `active` and
`completed` the sizes of the two views. -/
theorem filters_partition_positions (s : State) (hnd : DistinctObjects s)
    (hok : MarkupIntact s) :
    shownPositions s Filter.all = (List.range s.tasks.length).map Int.ofNat ∧
    (shownPositions s Filter.active ++ shownPositions s Filter.completed).Perm
      (shownPositions s Filter.all) ∧
    (∀ i : Int, i ∈ shownPositions s Filter.active → i ∉ shownPositions s Filter.completed) ∧
    (∀ i : Nat, i < s.tasks.length →
      (((i : Int) ∈ shownPositions s Filter.active ∧
          (i : Int) ∉ shownPositions s Filter.completed) ∨
        ((i : Int) ∉ shownPositions s Filter.active ∧
          (i : Int) ∈ shownPositions s Filter.completed))) ∧
    (updateCount s).active + ((updateCount s).completed : Int) = ((updateCount s).total : Int) ∧
    (updateCount s).active = ((shownPositions s Filter.active).length : Int) ∧
    (updateCount s).completed = (shownPositions s Filter.completed).length ∧
    (updateCount s).total = (shownPositions s Filter.all).length := by
  have hall : shownPositions s Filter.all =
      (List.range s.tasks.length).map Int.ofNat := by
    rw [shownPositions_eq s _ hnd hok]
    have h1 : project (collection s) Filter.all = (collection s).enum := by
      simp [project, matchesFilter]
    rw [h1]
    have h2 : ((collection s).enum.map (fun p => (p.1 : Int))) =
        ((collection s).enum.map Prod.fst).map Int.ofNat := by
      rw [List.map_map]
      rfl
    rw [h2, List.enum_map_fst]
    simp [collection]
  have hperm : (shownPositions s Filter.active ++ shownPositions s Filter.completed).Perm
      (shownPositions s Filter.all) := by
    rw [shownPositions_eq s _ hnd hok, shownPositions_eq s _ hnd hok, shownPositions_eq s _ hnd hok,
      ← List.map_append]
    exact (project_active_append_completed (collection s)).map _
  have hndAll : (shownPositions s Filter.all).Nodup := by
    rw [hall]
    exact (List.nodup_range _).map (fun a b h => Int.ofNat.inj h)
  have hndAC : (shownPositions s Filter.active ++ shownPositions s Filter.completed).Nodup :=
    hperm.nodup_iff.mpr hndAll
  have hdisj : ∀ i : Int, i ∈ shownPositions s Filter.active →
      i ∉ shownPositions s Filter.completed := by
    intro i ha hc
    exact (List.nodup_append.mp hndAC).2.2 ha hc
  have hlenC : (shownPositions s Filter.completed).length =
      (s.tasks.filter (fun t => (s.heap t).completed)).length := by
    rw [shownPositions_length s _ hok]
    simp [filterPredicate]
  have hlenAll : (shownPositions s Filter.all).length = s.tasks.length := by
    rw [hall]; simp
  have hsum : (shownPositions s Filter.active).length +
      (shownPositions s Filter.completed).length = s.tasks.length := by
    rw [← hlenAll, ← hperm.length_eq, List.length_append]
  refine ⟨hall, hperm, hdisj, ?_, ?_, ?_, ?_, ?_⟩
  · intro i hi
    have hmem : (i : Int) ∈ shownPositions s Filter.all := by
      rw [hall]
      exact List.mem_map.mpr ⟨i, List.mem_range.mpr hi, rfl⟩
    have hmem2 := (hperm.mem_iff).mpr hmem
    rcases List.mem_append.mp hmem2 with ha | hc
    · exact Or.inl ⟨ha, hdisj _ ha⟩
    · exact Or.inr ⟨fun ha => hdisj _ ha hc, hc⟩
  · simp [updateCount]
  · simp only [updateCount]
    rw [← hlenC]
    omega
  · simp only [updateCount]
    exact hlenC.symm
  · simp only [updateCount]
    exact hlenAll.symm

/-- C10 as stated fails: on the stored collection made of an active task with the text `<!--`
at position 0 and a completed task at position 1, rendering under `all` and under `active`
throws on the first item, so nothing is shown under `all` nor under `active` while position 1
is shown under `completed`: position 0 is in neither view, the two views together are not the
`all` view, and the `active` count 1 of `updateCount` is not the size 0 of the `active` view. -/
theorem filters_do_not_partition_on_broken_markup :
    DistinctObjects commentMixed ∧
    collection commentMixed = [taskComment, flipCompleted taskB] ∧
    shownPositions commentMixed Filter.all = [] ∧
    shownPositions commentMixed Filter.active = [] ∧
    shownPositions commentMixed Filter.completed = [1] ∧
    ((0 : Int) ∉ shownPositions commentMixed Filter.active ∧
      (0 : Int) ∉ shownPositions commentMixed Filter.completed) ∧
    ¬ (shownPositions commentMixed Filter.active ++
        shownPositions commentMixed Filter.completed).Perm
        (shownPositions commentMixed Filter.all) ∧
    updateCount commentMixed = { active := 1, total := 2, completed := 1 } ∧
    (updateCount commentMixed).active ≠
      ((shownPositions commentMixed Filter.active).length : Int) := by
  refine ⟨by decide, by decide, by decide, by decide, by decide, by decide, by decide,
    by decide, by decide⟩

/-! ## The properties at concrete states -/

/-- The render theorem at `sameTasks`: the two equal active tasks are displayed with the
positions 1 and 2. -/
theorem renderTasks_binds_full_position_at_sameTasks :
    DistinctObjects sameTasks ∧ DisplayedIntact sameTasks ∧
    ((renderTasks sameTasks).2 = none ∧
      (renderTasks sameTasks).1.view.items =
        (project (collection sameTasks) sameTasks.currentFilter).map itemAt) ∧
    (renderTasks sameTasks).1.view.items =
      [{ toggleIndex := 1, deleteIndex := 1, shown := taskA },
       { toggleIndex := 2, deleteIndex := 2, shown := taskA }] :=
  ⟨by decide, by decide, renderTasks_binds_full_position sameTasks (by decide) (by decide),
   by decide⟩

/-- The out-of-range delete theorem at `twoTasks`: positions 2 and 7 leave both tasks. -/
theorem deleteTask_beyond_length_noop_at_twoTasks :
    ((twoTasks.tasks.length : Int) ≤ 2 ∧
      collection (deleteTask twoTasks 2 false) = collection twoTasks) ∧
    ((twoTasks.tasks.length : Int) ≤ 7 ∧
      collection (deleteTask twoTasks 7 true) = collection twoTasks) ∧
    collection (deleteTask twoTasks 2 false) = [taskA, taskB] :=
  ⟨⟨by decide, (deleteTask_beyond_length_noop twoTasks 2 false (by decide)).2.2.1⟩,
   ⟨by decide, (deleteTask_beyond_length_noop twoTasks 7 true (by decide)).2.2.1⟩,
   by decide⟩

/-- The toggle theorem at `sameTasks`: position 7 changes nothing, position 2 flips the task
at position 2 and leaves its equal neighbour at position 1 alone. -/
theorem toggleTask_flips_only_position_at_sameTasks :
    toggleTask sameTasks 7 false = sameTasks ∧
    (toggleTask sameTasks 2 false).tasks = sameTasks.tasks ∧
    collection sameTasks = [flipCompleted taskA, taskA, taskA] ∧
    collection (toggleTask sameTasks 2 false) = [flipCompleted taskA, taskA, flipCompleted taskA] :=
  ⟨(toggleTask_flips_only_position sameTasks 7 false).1 (Or.inr (by decide)),
   ((toggleTask_flips_only_position sameTasks 2 false).2 ⟨by decide, by decide⟩ (by decide)).1,
   by decide, by decide⟩

/-- The add theorem at `twoTasks`, whose input field is empty, and at `sameTasks`, whose
input field holds `c` between blanks. -/
theorem addTask_appends_trimmed_at_samples :
    addTask twoTasks false = twoTasks ∧
    trim sameTasks.taskInput ≠ "" ∧
    collection (addTask sameTasks true) =
      collection sameTasks ++
        [{ text := trim sameTasks.taskInput, completed := false,
           priority := sameTasks.prioritySelect }] ∧
    collection (addTask sameTasks true) =
      [flipCompleted taskA, taskA, taskA, { text := "c", completed := false, priority := "medium" }] :=
  ⟨(addTask_appends_trimmed twoTasks false).2.2.1 (by decide), by decide,
   ((addTask_appends_trimmed sameTasks true).2.2.2 (by decide)).2.1, by decide⟩

/-- The clear-all theorem at `twoTasks`: declining keeps both tasks and the stored text,
confirming empties the collection and stores the empty array. -/
theorem clearAll_guarded_at_twoTasks :
    twoTasks.tasks ≠ [] ∧
    (clearAll twoTasks false false).tasks = twoTasks.tasks ∧
    (clearAll twoTasks false false).storage = twoTasks.storage ∧
    collection (clearAll twoTasks true false) = [] ∧
    (clearAll twoTasks true false).storage = some "[]" :=
  ⟨by decide,
   ((clearAll_guarded twoTasks false false).2.2.1 (by decide) rfl).1,
   ((clearAll_guarded twoTasks false false).2.2.1 (by decide) rfl).2.2.1,
   ((clearAll_guarded twoTasks true false).2.2.2.1 (by decide) rfl).1,
   ((clearAll_guarded twoTasks true false).2.2.2.1 (by decide) rfl).2.2 rfl⟩

/-- The delete theorem at `twoTasks` and position 0: only `taskB` remains. -/
theorem deleteTask_removes_position_at_twoTasks :
    (0 : Int) ≤ 0 ∧ (0 : Int) < (twoTasks.tasks.length : Int) ∧
    collection (deleteTask twoTasks 0 false) = (collection twoTasks).eraseIdx (0 : Int).toNat ∧
    collection (deleteTask twoTasks 0 false) = [taskB] :=
  ⟨by decide, by decide,
   (deleteTask_removes_position twoTasks 0 false (by decide) (by decide)).2.2.1, by decide⟩

/-- The partition theorem at `sameTasks`: position 0 is shown as completed, positions 1 and 2
as active. -/
theorem filters_partition_positions_at_sameTasks :
    DistinctObjects sameTasks ∧ MarkupIntact sameTasks ∧
    shownPositions sameTasks Filter.all = (List.range sameTasks.tasks.length).map Int.ofNat ∧
    shownPositions sameTasks Filter.active = [1, 2] ∧
    shownPositions sameTasks Filter.completed = [0] ∧
    updateCount sameTasks = { active := 2, total := 3, completed := 1 } :=
  ⟨by decide, by decide,
   (filters_partition_positions sameTasks (by decide) (by decide)).1, by decide, by decide,
   by decide⟩

/-- The clear-completed theorem at `sameTasks`: the completed task at position 0 goes, the
two equal active tasks stay. -/
theorem clearCompleted_keeps_incomplete_at_sameTasks :
    collection sameTasks = [flipCompleted taskA, taskA, taskA] ∧
    collection (clearCompleted sameTasks false) =
      (collection sameTasks).filter (fun t => !t.completed) ∧
    collection (clearCompleted sameTasks false) = [taskA, taskA] :=
  ⟨by decide, (clearCompleted_keeps_incomplete sameTasks false).1, by decide⟩

end TodoList
